import Mathlib

/-!
# Solo block producer (consensus/solo/solo.go)

A shallow embedding of `SoloService` from `consensus/solo/solo.go`: the tick
`genBlock`, the block assembly `makeBlock`, the authorization step
`getBlockPrograms`, the synthetic `createBookkeepingTransaction`, and the
life cycle `NewSoloService` / `Start` / `Halt`.

Conventions of the embedding.

* Collaborators that the file only calls (keystore, mempool, ledger store,
  crypto, contract context, clock, random source) are fields of `Client`,
  `Neter` and `Env`: one value per call site, fixed for the duration of one tick.
* A Go pointer or slice that may be nil is an `Option`; `none` is nil.
* A Go run-time panic is the `Except.error` branch of `Except Panic`.
* Unsigned machine integers are `Nat` reduced modulo `2 ^ w` where the source
  computes with them (`BlockHeight + 1` on `uint32`, the conversions
  `uint64(...)` and `uint32(...)` of the `int64` clock readings).
* State that the tick can change (ledger tip, mempool) is threaded through
  `World`, together with the record of the `AddBlock` and
  `CleanSubmittedTransactions` calls that were made.
* Log statements have no effect on any value and are left out.
-/

namespace solo

/-! ## Data model -/

/-- Go `Uint256` (hash values), kept abstract as a number. -/
abbrev Uint256 := Nat

/-- Go `Uint160` (program hash / address), kept abstract as a number. -/
abbrev Uint160 := Nat

/-- Go `*crypto.PubKey`, kept abstract as a number. -/
abbrev PubKey := Nat

/-- Go `error` values are represented by their message. -/
abbrev Error := String

/-- Go `program.Program`: code and parameter bytes. -/
structure Program where
  Code : List Nat
  Parameter : List Nat
deriving DecidableEq, Repr

/-- Go `tx.TransactionType`; only `BookKeeping` is created in solo.go. -/
inductive TransactionType where
  | BookKeeping
  | Other (code : Nat)
deriving DecidableEq, Repr

/-- Go `payload` of a transaction; `BookKeeping` is `payload.BookKeeping` with its `Nonce`. -/
inductive Payload where
  | BookKeeping (Nonce : Nat)
  | Other (data : List Nat)
deriving DecidableEq, Repr

/-- Go `tx.Transaction` with the fields assigned in `createBookkeepingTransaction`. -/
structure Transaction where
  TxType : TransactionType
  PayloadVersion : Nat
  Payload : Payload
  Attributes : List Nat
  UTXOInputs : List Nat
  BalanceInputs : List Nat
  Outputs : List Nat
  Programs : List Program
deriving DecidableEq, Repr

/-- Go `ledger.Header` with the fields assigned in `makeBlock`. -/
structure Header where
  Version : Nat
  PrevBlockHash : Uint256
  TransactionsRoot : Uint256
  BlockRoot : Uint256
  Timestamp : Nat
  Height : Nat
  ConsensusData : Nat
  NextBookKeeper : Uint160
deriving DecidableEq, Repr

/-- Go `ledger.Block`: header, transactions, and the authorization artifacts
installed by `SetPrograms` (nil in the literal built by `makeBlock`). -/
structure Block where
  Header : Header
  Transactions : List Transaction
  Programs : Option (List Program)
deriving DecidableEq, Repr

/-- Modelled from the spec: `ledger.Block.SetPrograms` is not part of solo.go.
The spec describes it as installing the artifact set on the block, mutating the
block's authorization field only ("the block's only post-construction mutation"). -/
def Block.SetPrograms (b : Block) (programs : List Program) : Block :=
  { b with Programs := some programs }

/-- Go `*account.Account`; `makeBlock` reads its `PublicKey` field. -/
structure Account where
  PublicKey : PubKey
  PrivateKey : Nat
deriving DecidableEq, Repr

/-- Run-time panics that the statements of solo.go can raise. -/
inductive Panic where
  | nilPointerDereference
  | closeOfNilChannel
  | closeOfClosedChannel
deriving DecidableEq, Repr

/-- The chain tip held by `ledger.DefaultLedger.Blockchain`: the field
`BlockHeight` (`uint32`) and the value of `CurrentBlockHash()`. -/
structure Ledger where
  BlockHeight : Nat
  CurrentBlockHash : Uint256
deriving DecidableEq, Repr

/-- The pending transactions held by the network layer. -/
abbrev TxnPool := List Transaction

/-- Go `cl.Client`: the two calls solo.go makes, each returning a possibly nil
account and a possibly nil error. -/
structure Client where
  GetDefaultAccount : Option Account × Option Error
  GetAccount : PubKey → Option Account × Option Error

/-- Go `net.Neter`: the snapshot call (the list is the order in which the
`range` loop of `makeBlock` visits the result) and the eviction call. -/
structure Neter where
  GetTxnPool : Bool → TxnPool → List Transaction
  CleanSubmittedTransactions : TxnPool → Block → Option Error × TxnPool

/-- Handle of a `contract.ContractContext`. -/
abbrev ContractContext := Nat

/-- Handle of a `contract.Contract`. -/
abbrev Contract := Nat

/-- The package-level collaborators of solo.go during one tick. -/
structure Env where
  /-- Go `GetNonce()` of package common (`uint64`). -/
  GetNonce : Nat
  /-- Go `time.Now().UnixNano()` (`int64`). -/
  NowUnixNano : Int
  /-- Go `time.Now().Unix()` (`int64`). -/
  NowUnix : Int
  /-- Go `payload.BookKeepingPayloadVersion`. -/
  BookKeepingPayloadVersion : Nat
  /-- Go `(*tx.Transaction).Hash()`. -/
  Hash : Transaction → Uint256
  /-- Go `crypto.ComputeRoot`. -/
  ComputeRoot : List Uint256 → Except Error Uint256
  /-- Go `ledger.GetBookKeeperAddress`. -/
  GetBookKeeperAddress : List PubKey → Except Error Uint160
  /-- Go `ledger.DefaultLedger.Store.GetBlockRootWithNewTxRoot`. -/
  GetBlockRootWithNewTxRoot : Uint256 → Uint256
  /-- Go `ledger.DefaultLedger.Blockchain.AddBlock`: the error and the tip afterwards. -/
  AddBlock : Ledger → Block → Option Error × Ledger
  /-- Go `contract.NewContractContext`. -/
  NewContractContext : Block → ContractContext
  /-- Go `sig.SignBySigner`. -/
  SignBySigner : Block → Option Account → Except Error (List Nat)
  /-- Go `contract.CreateSignatureContract`. -/
  CreateSignatureContract : PubKey → Except Error Contract
  /-- Go `(*ContractContext).AddContract`: the error and the context afterwards. -/
  AddContract : ContractContext → Contract → PubKey → List Nat → Option Error × ContractContext
  /-- Go `(*ContractContext).GetPrograms`: a nil or non-nil slice. -/
  GetPrograms : ContractContext → Option (List Program)

/-- State of a Go channel that has been made. -/
inductive ChanState where
  | isOpen
  | isClosed
deriving DecidableEq, Repr

/-- Go `SoloService`; `existCh` is `none` for the nil channel. -/
structure SoloService where
  Client : Client
  localNet : Neter
  existCh : Option ChanState

/-- An external call made by `genBlock`, with the error it returned. -/
inductive Call where
  | AddBlock (block : Block) (err : Option Error)
  | CleanSubmittedTransactions (block : Block) (err : Option Error)
deriving DecidableEq, Repr

/-- What a tick can read and change: ledger tip, mempool, and the calls made so far. -/
structure World where
  ledger : Ledger
  pool : TxnPool
  calls : List Call
deriving DecidableEq, Repr

/-! ## The code of solo.go -/

/-- Go `const ContextVersion uint32 = 0`. -/
def ContextVersion : Nat := 0

/-- Go conversion `uint64(x)` of an `int64`. -/
def toUint64 (x : Int) : Nat := (x % 2 ^ 64).toNat

/-- Go conversion `uint32(x)` of an `int64`. -/
def toUint32 (x : Int) : Nat := (x % 2 ^ 32).toNat

/-- Go `NewSoloService`: the composite literal leaves `existCh` at its zero value (nil). -/
def NewSoloService (client : Client) (localNet : Neter) : SoloService :=
  { Client := client, localNet := localNet, existCh := none }

/-- Go `createBookkeepingTransaction`: the parameter `nonce` is not used in the body;
the payload nonce is `uint64(time.Now().UnixNano())`. -/
def SoloService.createBookkeepingTransaction (_this : SoloService) (env : Env)
    (_nonce : Nat) : Transaction :=
  let bookKeepingPayload := Payload.BookKeeping (toUint64 env.NowUnixNano)
  { TxType := TransactionType.BookKeeping
    PayloadVersion := env.BookKeepingPayloadVersion
    Payload := bookKeepingPayload
    Attributes := []
    UTXOInputs := []
    BalanceInputs := []
    Outputs := []
    Programs := [] }

/-- Go `getBlockPrograms`. The error of `GetAccount` is discarded and the possibly nil
account is handed to `SignBySigner`. -/
def SoloService.getBlockPrograms (this : SoloService) (env : Env) (block : Block)
    (owner : PubKey) : Except Error (Option (List Program)) :=
  let ctx := env.NewContractContext block
  let account := (this.Client.GetAccount owner).1
  match env.SignBySigner block account with
  | .error err => .error ("SignBySigner error:" ++ err)
  | .ok sigData =>
    match env.CreateSignatureContract owner with
    | .error err => .error ("CreateSignatureContract error:" ++ err)
    | .ok sc =>
      match env.AddContract ctx sc owner sigData with
      | (some err, _) => .error ("AddContract error:" ++ err)
      | (none, ctx1) => .ok (env.GetPrograms ctx1)

/-- The `append` loop of `makeBlock` (lines 106-110): start from the bookkeeping
transaction and append every pool transaction in iteration order. -/
def appendTransactions (txBookkeeping : Transaction) (transactionsPool : List Transaction) :
    List Transaction :=
  transactionsPool.foldl (fun transactions transaction => transactions ++ [transaction])
    ([] ++ [txBookkeeping])

/-- The hashing loop of `makeBlock` (lines 115-118). -/
def hashTransactions (env : Env) (transactions : List Transaction) : List Uint256 :=
  transactions.foldl (fun txHash t => txHash ++ [env.Hash t]) []

/-- The reads of the tip (lines 112-113) and the header and block literals (lines
125-139) of `makeBlock`, before authorization. `Blockchain.BlockHeight` and
`Header.Height` are declared `uint32` in package ledger, so `BlockHeight + 1` is taken
modulo `2 ^ 32`. -/
def newBlock (env : Env) (w : World) (nonce : Nat) (nextBookKeeper : Uint160)
    (transactions : List Transaction) (txRoot : Uint256) : Block :=
  let prevHash := w.ledger.CurrentBlockHash
  let height := (w.ledger.BlockHeight + 1) % 2 ^ 32
  let blockRoot := env.GetBlockRootWithNewTxRoot txRoot
  let header : Header :=
    { Version := ContextVersion
      PrevBlockHash := prevHash
      TransactionsRoot := txRoot
      BlockRoot := blockRoot
      Timestamp := toUint32 env.NowUnix
      Height := height
      ConsensusData := nonce
      NextBookKeeper := nextBookKeeper }
  { Header := header, Transactions := transactions, Programs := none }

/-- Go `makeBlock`. `.ok none` is the nil return, `.error` a panic. The error of
`GetDefaultAccount` is discarded; reading `ac.PublicKey` through a nil `ac` panics. -/
def SoloService.makeBlock (this : SoloService) (env : Env) (w : World) :
    Except Panic (Option Block) :=
  match this.Client.GetDefaultAccount.1 with
  | none => .error Panic.nilPointerDereference
  | some ac =>
    let owner := ac.PublicKey
    match env.GetBookKeeperAddress [owner] with
    | .error _ => .ok none
    | .ok nextBookKeeper =>
      let transactionsPool := this.localNet.GetTxnPool true w.pool
      let nonce := env.GetNonce
      let txBookkeeping := this.createBookkeepingTransaction env nonce
      let transactions := appendTransactions txBookkeeping transactionsPool
      let txHash := hashTransactions env transactions
      match env.ComputeRoot txHash with
      | .error _ => .ok none
      | .ok txRoot =>
        let block := newBlock env w nonce nextBookKeeper transactions txRoot
        match this.getBlockPrograms env block owner with
        | .error _ => .ok none
        | .ok none => .ok none
        | .ok (some programs) => .ok (some (block.SetPrograms programs))

/-- Go `genBlock`: the panic raised (if any) and the world after the tick. -/
def SoloService.genBlock (this : SoloService) (env : Env) (w : World) :
    Option Panic × World :=
  match this.makeBlock env w with
  | .error p => (some p, w)
  | .ok none => (none, w)
  | .ok (some block) =>
    let r := env.AddBlock w.ledger block
    let w1 : World :=
      { ledger := r.2, pool := w.pool, calls := w.calls ++ [Call.AddBlock block r.1] }
    match r.1 with
    | some _ => (none, w1)
    | none =>
      let c := this.localNet.CleanSubmittedTransactions w1.pool block
      (none, { ledger := w1.ledger, pool := c.2,
               calls := w1.calls ++ [Call.CleanSubmittedTransactions block c.1] })

/-- Go `Start`: the value returned to the caller is the nil error. The receiver is not
modified (in particular `existCh` is not assigned); the goroutine that `Start`
spawns is described by `SoloService.loopPass`. -/
def SoloService.Start (_this : SoloService) : Option Error :=
  none

/-- Go receive `<-ch` inside a `select`: ready only on a closed channel (nothing in
solo.go sends on `existCh`); a receive from a nil or an open channel blocks. -/
def recvReady : Option ChanState → Bool
  | some ChanState.isClosed => true
  | _ => false

/-- Result of one pass through the `for`/`select` of the goroutine in `Start`. -/
inductive LoopPass where
  | blocked
  | returned
  | ticked (result : Option Panic × World)

/-- One pass of the goroutine loop of `Start`. `timerReady` tells whether `timer.C`
holds a tick; when both cases are ready the run time picks one, `pickExist` tells
which. -/
def SoloService.loopPass (this : SoloService) (env : Env) (w : World)
    (timerReady pickExist : Bool) : LoopPass :=
  if recvReady this.existCh && (pickExist || !timerReady) then LoopPass.returned
  else if timerReady then LoopPass.ticked (this.genBlock env w)
  else LoopPass.blocked

/-- Go `Halt`: `close(this.existCh)` panics on a nil channel and on a closed channel;
otherwise the channel is closed and the nil error is returned. -/
def SoloService.Halt (this : SoloService) : Except Panic (Option Error × SoloService) :=
  match this.existCh with
  | none => .error Panic.closeOfNilChannel
  | some ChanState.isClosed => .error Panic.closeOfClosedChannel
  | some ChanState.isOpen => .ok (none, { this with existCh := some ChanState.isClosed })

/-! ## Vocabulary for stating the claims -/

/-- The value of `transactions` in `makeBlock` (line 110), as a function of the tick. -/
def tickTransactions (this : SoloService) (env : Env) (w : World) : List Transaction :=
  appendTransactions (this.createBookkeepingTransaction env env.GetNonce)
    (this.localNet.GetTxnPool true w.pool)

/-- The value of `block` in `makeBlock` at line 139, before authorization, for the
next-bookkeeper address and transaction root obtained earlier in the call. -/
def tickBlock (this : SoloService) (env : Env) (w : World) (nextBookKeeper : Uint160)
    (txRoot : Uint256) : Block :=
  newBlock env w env.GetNonce nextBookKeeper (tickTransactions this env w) txRoot

/-- The calls that one tick adds to the record. -/
def tickCalls (this : SoloService) (env : Env) (w : World) : List Call :=
  (this.genBlock env w).2.calls.drop w.calls.length

/-- The blocks handed to `AddBlock`, in call order. -/
def offered : List Call → List Block
  | [] => []
  | Call.AddBlock block _ :: cs => block :: offered cs
  | Call.CleanSubmittedTransactions _ _ :: cs => offered cs

/-- The blocks that were appended successfully, in call order. -/
def committed : List Call → List Block
  | [] => []
  | Call.AddBlock block none :: cs => block :: committed cs
  | Call.AddBlock _ (some _) :: cs => committed cs
  | Call.CleanSubmittedTransactions _ _ :: cs => committed cs

/-- The blocks handed to `CleanSubmittedTransactions`, in call order. -/
def cleaned : List Call → List Block
  | [] => []
  | Call.CleanSubmittedTransactions block _ :: cs => block :: cleaned cs
  | Call.AddBlock _ _ :: cs => cleaned cs

/-- One of the five stages named in claim C10 is reached during the tick and returns
an error: `GetBookKeeperAddress`, `ComputeRoot`, `SignBySigner`,
`CreateSignatureContract` or `AddContract`. -/
inductive StageFailure (this : SoloService) (env : Env) (w : World) : Prop where
  | GetBookKeeperAddress (ac : Account) (e : Error)
      (hac : this.Client.GetDefaultAccount.1 = some ac)
      (herr : env.GetBookKeeperAddress [ac.PublicKey] = .error e)
  | ComputeRoot (ac : Account) (nextBookKeeper : Uint160) (e : Error)
      (hac : this.Client.GetDefaultAccount.1 = some ac)
      (hbk : env.GetBookKeeperAddress [ac.PublicKey] = .ok nextBookKeeper)
      (herr : env.ComputeRoot (hashTransactions env (tickTransactions this env w)) = .error e)
  | SignBySigner (ac : Account) (nextBookKeeper : Uint160) (txRoot : Uint256) (e : Error)
      (hac : this.Client.GetDefaultAccount.1 = some ac)
      (hbk : env.GetBookKeeperAddress [ac.PublicKey] = .ok nextBookKeeper)
      (hroot : env.ComputeRoot (hashTransactions env (tickTransactions this env w))
        = .ok txRoot)
      (herr : env.SignBySigner (tickBlock this env w nextBookKeeper txRoot)
        (this.Client.GetAccount ac.PublicKey).1 = .error e)
  | CreateSignatureContract (ac : Account) (nextBookKeeper : Uint160) (txRoot : Uint256)
      (sigData : List Nat) (e : Error)
      (hac : this.Client.GetDefaultAccount.1 = some ac)
      (hbk : env.GetBookKeeperAddress [ac.PublicKey] = .ok nextBookKeeper)
      (hroot : env.ComputeRoot (hashTransactions env (tickTransactions this env w))
        = .ok txRoot)
      (hsig : env.SignBySigner (tickBlock this env w nextBookKeeper txRoot)
        (this.Client.GetAccount ac.PublicKey).1 = .ok sigData)
      (herr : env.CreateSignatureContract ac.PublicKey = .error e)
  | AddContract (ac : Account) (nextBookKeeper : Uint160) (txRoot : Uint256)
      (sigData : List Nat) (sc : Contract) (e : Error)
      (hac : this.Client.GetDefaultAccount.1 = some ac)
      (hbk : env.GetBookKeeperAddress [ac.PublicKey] = .ok nextBookKeeper)
      (hroot : env.ComputeRoot (hashTransactions env (tickTransactions this env w))
        = .ok txRoot)
      (hsig : env.SignBySigner (tickBlock this env w nextBookKeeper txRoot)
        (this.Client.GetAccount ac.PublicKey).1 = .ok sigData)
      (hsc : env.CreateSignatureContract ac.PublicKey = .ok sc)
      (herr : (env.AddContract (env.NewContractContext
          (tickBlock this env w nextBookKeeper txRoot)) sc ac.PublicKey sigData).1 = some e)

/-- The timer ticks of the goroutine in order: every tick runs `genBlock` with the
answers the collaborators give at that time; a panic ends the process. -/
def runTicks : List (SoloService × Env) → World → World
  | [], w => w
  | (this, env) :: rest, w =>
    match this.genBlock env w with
    | (some _, w1) => w1
    | (none, w1) => runTicks rest w1

/-- The Ledger Store contract of the spec (section 4.4) for the block hash `blockHash`:
a successful `AddBlock` moves the tip to exactly the appended block, a rejected one
leaves the tip unchanged. -/
def LedgerContract (blockHash : Block → Uint256) (env : Env) : Prop :=
  ∀ (l : Ledger) (b : Block),
    ((env.AddBlock l b).1 = none →
      (env.AddBlock l b).2 = { BlockHeight := b.Header.Height, CurrentBlockHash := blockHash b }) ∧
    ((env.AddBlock l b).1 ≠ none → (env.AddBlock l b).2 = l)

/-- The blocks chain onto the tip one after the other: each has the tip's hash as
previous hash and the `uint32` successor of the tip's height, and becomes the next tip. -/
def ChainsFrom (blockHash : Block → Uint256) : Ledger → List Block → Prop
  | _, [] => True
  | l, b :: bs =>
    b.Header.Height = (l.BlockHeight + 1) % 2 ^ 32 ∧
    b.Header.PrevBlockHash = l.CurrentBlockHash ∧
    ChainsFrom blockHash { BlockHeight := b.Header.Height, CurrentBlockHash := blockHash b } bs

/-! ## Concrete collaborators for worked examples -/

/-- A keystore holding one account. -/
def exClient : Client :=
  { GetDefaultAccount := (some { PublicKey := 11, PrivateKey := 5 }, none)
    GetAccount := fun _ => (some { PublicKey := 11, PrivateKey := 5 }, none) }

/-- A keystore that cannot resolve the default account: nil account and an error. -/
def exClientNoAccount : Client :=
  { GetDefaultAccount := (none, some "no default account")
    GetAccount := fun _ => (none, some "no account") }

/-- A mempool whose snapshot is the whole pool and whose eviction removes the
transactions of the block. -/
def exNet : Neter :=
  { GetTxnPool := fun _ pool => pool
    CleanSubmittedTransactions := fun pool block =>
      (none, pool.filter (fun t => !(block.Transactions.contains t))) }

/-- A block hash for the examples. -/
def exBlockHash (b : Block) : Uint256 :=
  1000 * b.Header.Height + b.Header.TransactionsRoot + 1

/-- Collaborators that all succeed; the ledger store accepts exactly the blocks that
chain onto its tip. -/
def exEnv : Env :=
  { GetNonce := 7
    NowUnixNano := 1500000000000000003
    NowUnix := 1500000000
    BookKeepingPayloadVersion := 2
    Hash := fun t =>
      match t.Payload with
      | Payload.BookKeeping n => n % 1000
      | Payload.Other d => d.sum
    ComputeRoot := fun hs => if hs = [] then .error "no item" else .ok hs.sum
    GetBookKeeperAddress := fun ks => .ok ks.sum
    GetBlockRootWithNewTxRoot := fun r => r + 1
    AddBlock := fun l b =>
      if b.Header.Height = (l.BlockHeight + 1) % 2 ^ 32
          ∧ b.Header.PrevBlockHash = l.CurrentBlockHash then
        (none, { BlockHeight := b.Header.Height, CurrentBlockHash := exBlockHash b })
      else (some "block does not chain onto the tip", l)
    NewContractContext := fun _ => 0
    SignBySigner := fun _ _ => .ok [1, 2, 3]
    CreateSignatureContract := fun k => .ok k
    AddContract := fun _ sc _ _ => (none, sc + 1)
    GetPrograms := fun _ => some [{ Code := [33], Parameter := [64] }] }

/-- A transaction as it comes from the mempool. -/
def exTx (n : Nat) : Transaction :=
  { TxType := TransactionType.Other 128
    PayloadVersion := 0
    Payload := Payload.Other [n]
    Attributes := []
    UTXOInputs := [n]
    BalanceInputs := []
    Outputs := [n + 1]
    Programs := [] }

/-- A service with an open termination channel (as if `existCh` had been made). -/
def exService : SoloService :=
  { Client := exClient, localNet := exNet, existCh := some ChanState.isOpen }

/-- A world at tip height 41 with two pending transactions. -/
def exWorld : World :=
  { ledger := { BlockHeight := 41, CurrentBlockHash := 900 }
    pool := [exTx 1, exTx 2]
    calls := [] }

/-- The bookkeeping transaction that `exEnv` produces. -/
def exBookkeeping : Transaction :=
  { TxType := TransactionType.BookKeeping
    PayloadVersion := 2
    Payload := Payload.BookKeeping 1500000000000000003
    Attributes := []
    UTXOInputs := []
    BalanceInputs := []
    Outputs := []
    Programs := [] }

/-- The block that `makeBlock` returns for `exService`, `exEnv`, `exWorld`. -/
def exBlock : Block :=
  { Header :=
      { Version := 0
        PrevBlockHash := 900
        TransactionsRoot := 6
        BlockRoot := 7
        Timestamp := 1500000000
        Height := 42
        ConsensusData := 7
        NextBookKeeper := 11 }
    Transactions := [exBookkeeping, exTx 1, exTx 2]
    Programs := some [{ Code := [33], Parameter := [64] }] }

/-- A world with an empty mempool. -/
def exWorldEmptyPool : World :=
  { ledger := { BlockHeight := 41, CurrentBlockHash := 900 }
    pool := []
    calls := [] }

/-- The block that `makeBlock` returns for `exService`, `exEnv`, `exWorldEmptyPool`. -/
def exBlockEmptyPool : Block :=
  { Header :=
      { Version := 0
        PrevBlockHash := 900
        TransactionsRoot := 3
        BlockRoot := 4
        Timestamp := 1500000000
        Height := 42
        ConsensusData := 7
        NextBookKeeper := 11 }
    Transactions := [exBookkeeping]
    Programs := some [{ Code := [33], Parameter := [64] }] }

/-- A world whose tip has the largest `uint32` height. -/
def exWorldMaxHeight : World :=
  { ledger := { BlockHeight := 4294967295, CurrentBlockHash := 900 }
    pool := []
    calls := [] }

/-- The block that `makeBlock` returns for `exService`, `exEnv`, `exWorldMaxHeight`. -/
def exBlockMaxHeight : Block :=
  { Header :=
      { Version := 0
        PrevBlockHash := 900
        TransactionsRoot := 3
        BlockRoot := 4
        Timestamp := 1500000000
        Height := 0
        ConsensusData := 7
        NextBookKeeper := 11 }
    Transactions := [exBookkeeping]
    Programs := some [{ Code := [33], Parameter := [64] }] }

/-- The service as `NewSoloService` builds it, with a keystore that has no default account. -/
def exServiceNoAccount : SoloService :=
  NewSoloService exClientNoAccount exNet

/-- As `exEnv`, but the contract context yields a non-nil slice with no program. -/
def exEnvEmptyPrograms : Env :=
  { exEnv with GetPrograms := fun _ => some [] }

/-- As `exEnv`, but the contract context yields the nil slice. -/
def exEnvNilPrograms : Env :=
  { exEnv with GetPrograms := fun _ => none }

/-- As `exEnv`, but signing fails. -/
def exEnvSignFails : Env :=
  { exEnv with SignBySigner := fun _ _ => .error "no private key" }

/-- As `exEnv`, but the ledger store rejects every block. -/
def exEnvRejects : Env :=
  { exEnv with AddBlock := fun l _ => (some "stale previous hash", l) }

/-- The block of `exBlock` with an empty, non-nil artifact set installed. -/
def exBlockEmptyPrograms : Block :=
  { exBlock with Programs := some [] }

/-- A world with an empty mempool whose tip is one below the largest `uint32` height. -/
def exWorldBeforeWrap : World :=
  { ledger := { BlockHeight := 4294967294, CurrentBlockHash := 900 }
    pool := []
    calls := [] }

/-- The block of the first tick from `exWorldBeforeWrap`. -/
def exBlockLast : Block :=
  { Header :=
      { Version := 0
        PrevBlockHash := 900
        TransactionsRoot := 3
        BlockRoot := 4
        Timestamp := 1500000000
        Height := 4294967295
        ConsensusData := 7
        NextBookKeeper := 11 }
    Transactions := [exBookkeeping]
    Programs := some [{ Code := [33], Parameter := [64] }] }

/-- The block of the second tick from `exWorldBeforeWrap`. -/
def exBlockWrapped : Block :=
  { Header :=
      { Version := 0
        PrevBlockHash := 4294967295004
        TransactionsRoot := 3
        BlockRoot := 4
        Timestamp := 1500000000
        Height := 0
        ConsensusData := 7
        NextBookKeeper := 11 }
    Transactions := [exBookkeeping]
    Programs := some [{ Code := [33], Parameter := [64] }] }

/-- The second block of two ticks from `exWorld`. -/
def exBlockNext : Block :=
  { Header :=
      { Version := 0
        PrevBlockHash := 42007
        TransactionsRoot := 3
        BlockRoot := 4
        Timestamp := 1500000000
        Height := 43
        ConsensusData := 7
        NextBookKeeper := 11 }
    Transactions := [exBookkeeping]
    Programs := some [{ Code := [33], Parameter := [64] }] }

/-- A block hash that maps every block to the same value. -/
def exConstHash (_b : Block) : Uint256 := 5

/-- As `exEnv`, but the ledger store identifies blocks by `exConstHash`. -/
def exEnvConstHash : Env :=
  { exEnv with
    AddBlock := fun l b =>
      if b.Header.Height = (l.BlockHeight + 1) % 2 ^ 32
          ∧ b.Header.PrevBlockHash = l.CurrentBlockHash then
        (none, { BlockHeight := b.Header.Height, CurrentBlockHash := exConstHash b })
      else (some "block does not chain onto the tip", l) }

/-- Two timer ticks answered by `exEnv`. -/
def exTicks : List (SoloService × Env) :=
  [(exService, exEnv), (exService, exEnv)]

/-- Three timer ticks answered by `exEnvConstHash`. -/
def exTicksConstHash : List (SoloService × Env) :=
  [(exService, exEnvConstHash), (exService, exEnvConstHash), (exService, exEnvConstHash)]

/-! ## Lemmas -/

theorem foldl_append_singleton {α β : Type} (f : α → β) (l : List α) (init : List β) :
    l.foldl (fun acc x => acc ++ [f x]) init = init ++ l.map f := by
  induction l generalizing init with
  | nil => simp
  | cons x xs ih => simp [List.foldl_cons, ih]

theorem appendTransactions_eq (txBookkeeping : Transaction) (pool : List Transaction) :
    appendTransactions txBookkeeping pool = txBookkeeping :: pool := by
  unfold appendTransactions
  have h := foldl_append_singleton (fun t : Transaction => t) pool ([] ++ [txBookkeeping])
  simpa using h

theorem hashTransactions_eq (env : Env) (transactions : List Transaction) :
    hashTransactions env transactions = transactions.map env.Hash := by
  unfold hashTransactions
  simpa using foldl_append_singleton env.Hash transactions []

theorem tickTransactions_eq (this : SoloService) (env : Env) (w : World) :
    tickTransactions this env w
      = this.createBookkeepingTransaction env env.GetNonce
          :: this.localNet.GetTxnPool true w.pool := by
  unfold tickTransactions
  exact appendTransactions_eq _ _

/-- Every path of `makeBlock` that returns a block: all stages succeeded and the block
is the literal of line 136 with the programs installed. -/
theorem makeBlock_eq_some {this : SoloService} {env : Env} {w : World} {b : Block}
    (h : this.makeBlock env w = .ok (some b)) :
    ∃ ac nextBookKeeper txRoot programs,
      this.Client.GetDefaultAccount.1 = some ac ∧
      env.GetBookKeeperAddress [ac.PublicKey] = .ok nextBookKeeper ∧
      env.ComputeRoot (hashTransactions env (tickTransactions this env w)) = .ok txRoot ∧
      this.getBlockPrograms env (tickBlock this env w nextBookKeeper txRoot) ac.PublicKey
        = .ok (some programs) ∧
      b = (tickBlock this env w nextBookKeeper txRoot).SetPrograms programs := by
  unfold SoloService.makeBlock at h
  split at h
  · cases h
  · rename_i ac hac
    try dsimp only at h
    split at h
    · cases h
    · rename_i nb hnb
      try dsimp only at h
      split at h
      · cases h
      · rename_i txRoot hroot
        try dsimp only at h
        split at h
        · cases h
        · cases h
        · rename_i programs hprog
          refine ⟨ac, nb, txRoot, programs, hac, hnb, hroot, hprog, ?_⟩
          simp only [Except.ok.injEq, Option.some.injEq] at h
          exact h.symm

/-- The paths of `makeBlock` after the three assembly stages succeeded. -/
theorem makeBlock_of_stages {this : SoloService} {env : Env} {w : World}
    {ac : Account} {nextBookKeeper : Uint160} {txRoot : Uint256}
    (hac : this.Client.GetDefaultAccount.1 = some ac)
    (hbk : env.GetBookKeeperAddress [ac.PublicKey] = .ok nextBookKeeper)
    (hroot : env.ComputeRoot (hashTransactions env (tickTransactions this env w)) = .ok txRoot) :
    this.makeBlock env w =
      match this.getBlockPrograms env (tickBlock this env w nextBookKeeper txRoot)
          ac.PublicKey with
      | .error _ => .ok none
      | .ok none => .ok none
      | .ok (some programs) =>
        .ok (some ((tickBlock this env w nextBookKeeper txRoot).SetPrograms programs)) := by
  unfold SoloService.makeBlock
  simp only [hac, hbk]
  unfold tickTransactions at hroot
  simp only [hroot]
  rfl

/-- When `getBlockPrograms` returns an error, `makeBlock` returns nil. -/
theorem makeBlock_of_programs_error {this : SoloService} {env : Env} {w : World}
    {ac : Account} {nextBookKeeper : Uint160} {txRoot : Uint256} {e : Error}
    (hac : this.Client.GetDefaultAccount.1 = some ac)
    (hbk : env.GetBookKeeperAddress [ac.PublicKey] = .ok nextBookKeeper)
    (hroot : env.ComputeRoot (hashTransactions env (tickTransactions this env w)) = .ok txRoot)
    (hprog : this.getBlockPrograms env (tickBlock this env w nextBookKeeper txRoot)
      ac.PublicKey = .error e) :
    this.makeBlock env w = .ok none := by
  rw [makeBlock_of_stages hac hbk hroot, hprog]

/-- Height and previous hash of a returned block, as computed at lines 112-113. -/
theorem makeBlock_height_prev {this : SoloService} {env : Env} {w : World} {b : Block}
    (h : this.makeBlock env w = .ok (some b)) :
    b.Header.Height = (w.ledger.BlockHeight + 1) % 2 ^ 32 ∧
    b.Header.PrevBlockHash = w.ledger.CurrentBlockHash := by
  obtain ⟨ac, nb, txRoot, programs, -, -, -, -, hb⟩ := makeBlock_eq_some h
  subst hb
  exact ⟨rfl, rfl⟩

/-- Without an account `makeBlock` panics, whatever error came with it. -/
theorem makeBlock_of_nil_account {this : SoloService} {env : Env} {w : World}
    (h : this.Client.GetDefaultAccount.1 = none) :
    this.makeBlock env w = .error Panic.nilPointerDereference := by
  unfold SoloService.makeBlock
  simp only [h]

/-- The two nonces of a returned block: the header carries `GetNonce()`, the payload of
element 0 carries the clock reading. -/
theorem makeBlock_nonces {this : SoloService} {env : Env} {w : World} {b : Block}
    (h : this.makeBlock env w = .ok (some b)) :
    b.Header.ConsensusData = env.GetNonce ∧
    b.Transactions.head?.map (fun t => t.Payload)
      = some (Payload.BookKeeping (toUint64 env.NowUnixNano)) := by
  obtain ⟨ac, nb, txRoot, programs, -, -, -, -, hb⟩ := makeBlock_eq_some h
  subst hb
  refine ⟨rfl, ?_⟩
  show (tickTransactions this env w).head?.map (fun t => t.Payload) = _
  rw [tickTransactions_eq]
  rfl

/-- On a service whose channel was made, `Halt` closes it and returns nil, after which
the termination case of the loop is ready. -/
theorem Halt_of_open_channel (this : SoloService)
    (h : this.existCh = some ChanState.isOpen) :
    ∃ s, this.Halt = .ok (none, s) ∧ s.existCh = some ChanState.isClosed ∧
      ∀ env w, s.loopPass env w false false = LoopPass.returned := by
  refine ⟨{ this with existCh := some ChanState.isClosed }, ?_, rfl, ?_⟩
  · unfold SoloService.Halt
    simp only [h]
  · intro env w
    simp [SoloService.loopPass, recvReady]

theorem genBlock_of_nil {this : SoloService} {env : Env} {w : World}
    (h : this.makeBlock env w = .ok none) : this.genBlock env w = (none, w) := by
  unfold SoloService.genBlock
  rw [h]

theorem genBlock_of_panic {this : SoloService} {env : Env} {w : World} {p : Panic}
    (h : this.makeBlock env w = .error p) : this.genBlock env w = (some p, w) := by
  unfold SoloService.genBlock
  rw [h]

theorem genBlock_of_rejected {this : SoloService} {env : Env} {w : World} {b : Block}
    {e : Error} (h : this.makeBlock env w = .ok (some b))
    (herr : (env.AddBlock w.ledger b).1 = some e) :
    this.genBlock env w =
      (none, { ledger := (env.AddBlock w.ledger b).2, pool := w.pool,
               calls := w.calls ++ [Call.AddBlock b (some e)] }) := by
  unfold SoloService.genBlock
  rw [h]
  simp only [herr]

theorem genBlock_of_appended {this : SoloService} {env : Env} {w : World} {b : Block}
    (h : this.makeBlock env w = .ok (some b))
    (hok : (env.AddBlock w.ledger b).1 = none) :
    this.genBlock env w =
      (none, { ledger := (env.AddBlock w.ledger b).2,
               pool := (this.localNet.CleanSubmittedTransactions w.pool b).2,
               calls := w.calls ++ [Call.AddBlock b none,
                 Call.CleanSubmittedTransactions b
                   (this.localNet.CleanSubmittedTransactions w.pool b).1] }) := by
  unfold SoloService.genBlock
  rw [h]
  simp only [hok, List.append_assoc, List.singleton_append]

theorem tickCalls_of_eq {this : SoloService} {env : Env} {w w1 : World} {p : Option Panic}
    {cs : List Call} (h : this.genBlock env w = (p, w1)) (hc : w1.calls = w.calls ++ cs) :
    tickCalls this env w = cs := by
  unfold tickCalls
  rw [h]
  simp only [hc, List.drop_left]

theorem tickCalls_of_unchanged {this : SoloService} {env : Env} {w : World}
    {p : Option Panic} (h : this.genBlock env w = (p, w)) : tickCalls this env w = [] :=
  tickCalls_of_eq h (List.append_nil _).symm

theorem committed_append (xs ys : List Call) :
    committed (xs ++ ys) = committed xs ++ committed ys := by
  induction xs with
  | nil => rfl
  | cons c cs ih =>
    cases c with
    | AddBlock b err =>
      cases err with
      | none => simp [committed, ih]
      | some e => simp [committed, ih]
    | CleanSubmittedTransactions b err => simp [committed, ih]

/-- What one tick does to the chain under the ledger contract: either nothing is
committed and the tip stays, or one block that chains onto the tip is committed and
becomes the tip. -/
theorem genBlock_chain_step (blockHash : Block → Uint256) (this : SoloService) (env : Env)
    (w : World) (hc : LedgerContract blockHash env) :
    (committed (this.genBlock env w).2.calls = committed w.calls ∧
      (this.genBlock env w).2.ledger = w.ledger) ∨
    (∃ b, (this.genBlock env w).1 = none ∧
      committed (this.genBlock env w).2.calls = committed w.calls ++ [b] ∧
      (this.genBlock env w).2.ledger
        = { BlockHeight := b.Header.Height, CurrentBlockHash := blockHash b } ∧
      b.Header.Height = (w.ledger.BlockHeight + 1) % 2 ^ 32 ∧
      b.Header.PrevBlockHash = w.ledger.CurrentBlockHash) := by
  cases hm : this.makeBlock env w with
  | error p =>
    left
    rw [genBlock_of_panic hm]
    exact ⟨rfl, rfl⟩
  | ok ob =>
    cases ob with
    | none =>
      left
      rw [genBlock_of_nil hm]
      exact ⟨rfl, rfl⟩
    | some b =>
      cases herr : (env.AddBlock w.ledger b).1 with
      | some e =>
        left
        rw [genBlock_of_rejected hm herr]
        refine ⟨?_, ?_⟩
        · show committed (w.calls ++ [Call.AddBlock b (some e)]) = committed w.calls
          rw [committed_append]
          simp [committed]
        · show (env.AddBlock w.ledger b).2 = w.ledger
          apply (hc w.ledger b).2
          rw [herr]
          exact Option.some_ne_none e
      | none =>
        right
        have hh := makeBlock_height_prev hm
        refine ⟨b, ?_, ?_, ?_, hh.1, hh.2⟩
        · rw [genBlock_of_appended hm herr]
        · rw [genBlock_of_appended hm herr]
          show committed (w.calls ++ [Call.AddBlock b none, _]) = committed w.calls ++ [b]
          rw [committed_append]
          simp [committed]
        · rw [genBlock_of_appended hm herr]
          exact (hc w.ledger b).1 herr

/-- Along any sequence of ticks under the ledger contract, the newly committed blocks
chain onto the tip the sequence started from. -/
theorem runTicks_chain (blockHash : Block → Uint256) :
    ∀ (ticks : List (SoloService × Env)) (w : World),
      (∀ t ∈ ticks, LedgerContract blockHash t.2) →
      ∃ bs, committed (runTicks ticks w).calls = committed w.calls ++ bs ∧
        ChainsFrom blockHash w.ledger bs := by
  intro ticks
  induction ticks with
  | nil =>
    intro w _
    exact ⟨[], by simp [runTicks], trivial⟩
  | cons t rest ih =>
    intro w hc
    obtain ⟨this, env⟩ := t
    have henv : LedgerContract blockHash env := hc (this, env) (List.mem_cons_self _ _)
    have hrest : ∀ t ∈ rest, LedgerContract blockHash t.2 :=
      fun t ht => hc t (List.mem_cons_of_mem _ ht)
    have hstep := genBlock_chain_step blockHash this env w henv
    cases hg : this.genBlock env w with
    | mk p w1 =>
      rw [hg] at hstep
      cases p with
      | some pn =>
        have hrun : runTicks ((this, env) :: rest) w = w1 := by
          simp only [runTicks, hg]
        rw [hrun]
        rcases hstep with ⟨hcm, -⟩ | ⟨b, hp, -⟩
        · exact ⟨[], by simpa using hcm, trivial⟩
        · cases hp
      | none =>
        have hrun : runTicks ((this, env) :: rest) w = runTicks rest w1 := by
          simp only [runTicks, hg]
        rw [hrun]
        obtain ⟨bs, hbs, hch⟩ := ih w1 hrest
        rcases hstep with ⟨hcm, hl⟩ | ⟨b, -, hcm, hl, hh, hp⟩
        · refine ⟨bs, ?_, ?_⟩
          · rw [hbs]
            simp only at hcm
            rw [hcm]
          · simp only at hl
            rw [← hl]
            exact hch
        · refine ⟨b :: bs, ?_, ?_⟩
          · rw [hbs]
            simp only at hcm
            rw [hcm, List.append_assoc, List.singleton_append]
          · simp only at hl
            rw [hl] at hch
            exact ⟨hh, hp, hch⟩

theorem chainsFrom_consecutive (blockHash : Block → Uint256) :
    ∀ (cs : List Block) (l : Ledger), ChainsFrom blockHash l cs →
      List.Chain' (fun b1 b2 : Block =>
        b2.Header.Height = (b1.Header.Height + 1) % 2 ^ 32 ∧
        b2.Header.PrevBlockHash = blockHash b1) cs := by
  intro cs
  induction cs with
  | nil => intro _ _; exact List.chain'_nil
  | cons b bs ih =>
    intro l h
    obtain ⟨-, -, hrest⟩ := h
    cases bs with
    | nil => exact List.chain'_singleton b
    | cons b2 bs2 =>
      rw [List.chain'_cons]
      exact ⟨⟨hrest.1, hrest.2.1⟩, ih _ hrest⟩

theorem chainsFrom_no_wrap (blockHash : Block → Uint256) :
    ∀ (cs : List Block) (l : Ledger), ChainsFrom blockHash l cs →
      l.BlockHeight + cs.length < 2 ^ 32 →
      (∀ b, cs.head? = some b → b.Header.Height = l.BlockHeight + 1) ∧
      List.Chain' (fun b1 b2 : Block => b2.Header.Height = b1.Header.Height + 1) cs := by
  intro cs
  induction cs with
  | nil =>
    intro _ _ _
    refine ⟨?_, List.chain'_nil⟩
    intro b hb
    cases hb
  | cons b bs ih =>
    intro l h hlt
    obtain ⟨hh, -, hrest⟩ := h
    rw [List.length_cons] at hlt
    have hb : b.Header.Height = l.BlockHeight + 1 := by
      rw [hh]
      exact Nat.mod_eq_of_lt (by omega)
    have hih := ih _ hrest (by show b.Header.Height + bs.length < 2 ^ 32; omega)
    refine ⟨?_, ?_⟩
    · intro b1 hb1
      simp only [List.head?_cons, Option.some.injEq] at hb1
      rw [← hb1]
      exact hb
    · rw [List.chain'_cons']
      refine ⟨?_, hih.2⟩
      intro y hy
      exact hih.1 y hy

theorem chainsFrom_prev_hashes (blockHash : Block → Uint256) :
    ∀ (cs : List Block) (l : Ledger), ChainsFrom blockHash l cs →
      cs.map (fun b => b.Header.PrevBlockHash)
        = (l.CurrentBlockHash :: cs.map blockHash).dropLast := by
  intro cs
  induction cs with
  | nil => intro _ _; rfl
  | cons b bs ih =>
    intro l h
    obtain ⟨-, hp, hrest⟩ := h
    have hih := ih _ hrest
    simp only [List.map_cons, List.dropLast_cons₂]
    rw [hp, hih]

theorem exEnv_ledgerContract : LedgerContract exBlockHash exEnv := by
  intro l b
  simp only [exEnv]
  split_ifs with hcond
  · simp
  · simp

theorem exEnvConstHash_ledgerContract : LedgerContract exConstHash exEnvConstHash := by
  intro l b
  simp only [exEnvConstHash]
  split_ifs with hcond
  · simp
  · simp

/-- The hash condition of C9 (amended) cannot be dropped: with a block hash that
collides, the second and third committed blocks carry the same `PrevBlockHash`. -/
theorem prev_hash_collision_example :
    LedgerContract exConstHash exEnvConstHash ∧
    (committed (runTicks exTicksConstHash exWorldEmptyPool).calls).map
        (fun b => (b.Header.Height, b.Header.PrevBlockHash))
      = [(42, 900), (43, 5), (44, 5)] :=
  ⟨exEnvConstHash_ledgerContract, rfl⟩

/-! ## The claims -/

/-- C1 (amended): whenever `makeBlock` returns a block, its header has
`Height = (h + 1) mod 2^32` (which is `h + 1` for every tip height `h < 2^32 - 1`)
and `PrevBlockHash = p`, for the tip `(h, p)` read during the call. -/
theorem C1_height_and_prev_hash (this : SoloService) (env : Env) (w : World) (b : Block)
    (h : this.makeBlock env w = .ok (some b)) :
    b.Header.Height = (w.ledger.BlockHeight + 1) % 2 ^ 32 ∧
    (w.ledger.BlockHeight + 1 < 2 ^ 32 → b.Header.Height = w.ledger.BlockHeight + 1) ∧
    b.Header.PrevBlockHash = w.ledger.CurrentBlockHash := by
  obtain ⟨ac, nb, txRoot, programs, -, -, -, -, hb⟩ := makeBlock_eq_some h
  subst hb
  refine ⟨rfl, ?_, rfl⟩
  intro hlt
  show (w.ledger.BlockHeight + 1) % 2 ^ 32 = w.ledger.BlockHeight + 1
  exact Nat.mod_eq_of_lt hlt

/-- Worked instance of C1 (amended) at tip height 41. -/
theorem C1_height_and_prev_hash_witness :
    exService.makeBlock exEnv exWorld = .ok (some exBlock) ∧
    (exBlock.Header.Height = (exWorld.ledger.BlockHeight + 1) % 2 ^ 32 ∧
     (exWorld.ledger.BlockHeight + 1 < 2 ^ 32 →
        exBlock.Header.Height = exWorld.ledger.BlockHeight + 1) ∧
     exBlock.Header.PrevBlockHash = exWorld.ledger.CurrentBlockHash) :=
  ⟨rfl, C1_height_and_prev_hash exService exEnv exWorld exBlock rfl⟩

/-- C1 as stated fails at the largest `uint32` tip height: `makeBlock` returns a block
whose height is 0, not `h + 1 = 4294967296`. -/
theorem C1_counterexample :
    exService.makeBlock exEnv exWorldMaxHeight = .ok (some exBlockMaxHeight) ∧
    exBlockMaxHeight.Header.Height = 0 ∧
    exWorldMaxHeight.ledger.BlockHeight + 1 = 4294967296 ∧
    ¬ (exBlockMaxHeight.Header.Height = exWorldMaxHeight.ledger.BlockHeight + 1 ∧
       exBlockMaxHeight.Header.PrevBlockHash = exWorldMaxHeight.ledger.CurrentBlockHash) := by
  refine ⟨rfl, rfl, rfl, ?_⟩
  decide

/-- C2: for every block returned by `makeBlock`, the header's `TransactionsRoot` is what
`ComputeRoot` returns on the hashes of the block's transactions, in block order, the
bookkeeping transaction's hash being element 0. -/
theorem C2_transactions_root (this : SoloService) (env : Env) (w : World) (b : Block)
    (h : this.makeBlock env w = .ok (some b)) :
    env.ComputeRoot (b.Transactions.map env.Hash) = .ok b.Header.TransactionsRoot ∧
    (b.Transactions.map env.Hash).head?
      = some (env.Hash (this.createBookkeepingTransaction env env.GetNonce)) := by
  obtain ⟨ac, nb, txRoot, programs, -, -, hroot, -, hb⟩ := makeBlock_eq_some h
  subst hb
  rw [hashTransactions_eq] at hroot
  refine ⟨hroot, ?_⟩
  show ((tickTransactions this env w).map env.Hash).head? = _
  rw [tickTransactions_eq]
  rfl

/-- Worked instance of C2: root 6 over the hashes 3, 1, 2. -/
theorem C2_transactions_root_witness :
    exService.makeBlock exEnv exWorld = .ok (some exBlock) ∧
    exBlock.Transactions.map exEnv.Hash = [3, 1, 2] ∧
    (exEnv.ComputeRoot (exBlock.Transactions.map exEnv.Hash)
        = .ok exBlock.Header.TransactionsRoot ∧
     (exBlock.Transactions.map exEnv.Hash).head?
        = some (exEnv.Hash (exService.createBookkeepingTransaction exEnv exEnv.GetNonce))) :=
  ⟨rfl, rfl, C2_transactions_root exService exEnv exWorld exBlock rfl⟩

/-- C3: for every mempool snapshot, a block returned by `makeBlock` carries the
bookkeeping transaction followed by the snapshot in snapshot order; its length is the
snapshot length plus one, at least one, and element 0 has type `BookKeeping`. -/
theorem C3_transaction_sequence (this : SoloService) (env : Env) (w : World) (b : Block)
    (h : this.makeBlock env w = .ok (some b)) :
    b.Transactions = this.createBookkeepingTransaction env env.GetNonce
                      :: this.localNet.GetTxnPool true w.pool ∧
    b.Transactions.length = (this.localNet.GetTxnPool true w.pool).length + 1 ∧
    1 ≤ b.Transactions.length ∧
    b.Transactions.head? = some (this.createBookkeepingTransaction env env.GetNonce) ∧
    (this.createBookkeepingTransaction env env.GetNonce).TxType
      = TransactionType.BookKeeping := by
  obtain ⟨ac, nb, txRoot, programs, -, -, -, -, hb⟩ := makeBlock_eq_some h
  have ht : b.Transactions = this.createBookkeepingTransaction env env.GetNonce
      :: this.localNet.GetTxnPool true w.pool := by
    subst hb
    exact tickTransactions_eq this env w
  refine ⟨ht, ?_, ?_, ?_, rfl⟩
  · rw [ht, List.length_cons]
  · rw [ht, List.length_cons]
    exact Nat.le_add_left 1 _
  · rw [ht, List.head?_cons]

/-- Worked instance of C3 with the empty snapshot: the block holds the bookkeeping
transaction alone. -/
theorem C3_transaction_sequence_witness :
    exService.makeBlock exEnv exWorldEmptyPool = .ok (some exBlockEmptyPool) ∧
    exService.localNet.GetTxnPool true exWorldEmptyPool.pool = [] ∧
    (exBlockEmptyPool.Transactions
        = exService.createBookkeepingTransaction exEnv exEnv.GetNonce
            :: exService.localNet.GetTxnPool true exWorldEmptyPool.pool ∧
     exBlockEmptyPool.Transactions.length
        = (exService.localNet.GetTxnPool true exWorldEmptyPool.pool).length + 1 ∧
     1 ≤ exBlockEmptyPool.Transactions.length ∧
     exBlockEmptyPool.Transactions.head?
        = some (exService.createBookkeepingTransaction exEnv exEnv.GetNonce) ∧
     (exService.createBookkeepingTransaction exEnv exEnv.GetNonce).TxType
        = TransactionType.BookKeeping) :=
  ⟨rfl, rfl, C3_transaction_sequence exService exEnv exWorldEmptyPool exBlockEmptyPool rfl⟩

/-- C4 (amended): when `getBlockPrograms` is reached and returns no error and the nil
artifact set, `makeBlock` returns no block and `genBlock` calls neither `AddBlock` nor
anything else; when it returns a non-nil set, with or without elements, `makeBlock`
returns the block with that set installed and `genBlock` hands it to `AddBlock`. -/
theorem C4_nil_programs_abort (this : SoloService) (env : Env) (w : World)
    (ac : Account) (nextBookKeeper : Uint160) (txRoot : Uint256)
    (hac : this.Client.GetDefaultAccount.1 = some ac)
    (hbk : env.GetBookKeeperAddress [ac.PublicKey] = .ok nextBookKeeper)
    (hroot : env.ComputeRoot (hashTransactions env (tickTransactions this env w)) = .ok txRoot) :
    (this.getBlockPrograms env (tickBlock this env w nextBookKeeper txRoot) ac.PublicKey
        = .ok none →
      this.makeBlock env w = .ok none ∧ this.genBlock env w = (none, w) ∧
      tickCalls this env w = []) ∧
    (∀ programs,
      this.getBlockPrograms env (tickBlock this env w nextBookKeeper txRoot) ac.PublicKey
        = .ok (some programs) →
      this.makeBlock env w
        = .ok (some ((tickBlock this env w nextBookKeeper txRoot).SetPrograms programs)) ∧
      (offered (tickCalls this env w)
        = [(tickBlock this env w nextBookKeeper txRoot).SetPrograms programs])) := by
  have hm := makeBlock_of_stages (w := w) hac hbk hroot
  constructor
  · intro hprog
    rw [hprog] at hm
    have hg := genBlock_of_nil hm
    exact ⟨hm, hg, tickCalls_of_unchanged hg⟩
  · intro programs hprog
    rw [hprog] at hm
    refine ⟨hm, ?_⟩
    cases herr : (env.AddBlock w.ledger
        ((tickBlock this env w nextBookKeeper txRoot).SetPrograms programs)).1 with
    | some e =>
      rw [tickCalls_of_eq (genBlock_of_rejected hm herr) rfl]
      rfl
    | none =>
      rw [tickCalls_of_eq (genBlock_of_appended hm herr) rfl]
      rfl

/-- Worked instance of C4 (amended): a nil artifact set aborts the tick. -/
theorem C4_nil_programs_abort_witness :
    exService.getBlockPrograms exEnvNilPrograms (tickBlock exService exEnvNilPrograms exWorld 11 6) 11
      = .ok none ∧
    exService.makeBlock exEnvNilPrograms exWorld = .ok none ∧
    exService.genBlock exEnvNilPrograms exWorld = (none, exWorld) ∧
    tickCalls exService exEnvNilPrograms exWorld = [] :=
  ⟨rfl, (C4_nil_programs_abort exService exEnvNilPrograms exWorld
          { PublicKey := 11, PrivateKey := 5 } 11 6 rfl rfl rfl).1 rfl⟩

/-- C4 as stated fails for a non-nil artifact set with zero elements: `getBlockPrograms`
returns it without error, `makeBlock` returns a block, and `genBlock` calls `AddBlock`. -/
theorem C4_counterexample :
    exService.getBlockPrograms exEnvEmptyPrograms
        (tickBlock exService exEnvEmptyPrograms exWorld 11 6) 11 = .ok (some []) ∧
    exService.makeBlock exEnvEmptyPrograms exWorld = .ok (some exBlockEmptyPrograms) ∧
    (exService.genBlock exEnvEmptyPrograms exWorld).2.calls
      = [Call.AddBlock exBlockEmptyPrograms none,
         Call.CleanSubmittedTransactions exBlockEmptyPrograms none] :=
  ⟨rfl, rfl, rfl⟩

/-- C5: in every tick the blocks handed to `CleanSubmittedTransactions` are exactly the
blocks that `AddBlock` accepted (at most one per tick); when `makeBlock` yields a block
and `AddBlock` returns an error there is no such call and the mempool is unchanged, and
when `AddBlock` returns no error the call is made exactly once, with that block. -/
theorem C5_clean_iff_appended (this : SoloService) (env : Env) (w : World) :
    cleaned (tickCalls this env w) = committed (tickCalls this env w) ∧
    (cleaned (tickCalls this env w)).length ≤ 1 ∧
    (∀ b, this.makeBlock env w = .ok (some b) →
      ((env.AddBlock w.ledger b).1 ≠ none →
        cleaned (tickCalls this env w) = [] ∧ (this.genBlock env w).2.pool = w.pool) ∧
      ((env.AddBlock w.ledger b).1 = none → cleaned (tickCalls this env w) = [b])) := by
  cases hm : this.makeBlock env w with
  | error p =>
    have hc := tickCalls_of_unchanged (genBlock_of_panic hm)
    rw [hc]
    refine ⟨rfl, Nat.zero_le _, ?_⟩
    intro b hb
    cases hb
  | ok ob =>
    cases ob with
    | none =>
      have hc := tickCalls_of_unchanged (genBlock_of_nil hm)
      rw [hc]
      refine ⟨rfl, Nat.zero_le _, ?_⟩
      intro b hb
      cases hb
    | some b0 =>
      cases herr : (env.AddBlock w.ledger b0).1 with
      | some e =>
        have hg := genBlock_of_rejected hm herr
        rw [tickCalls_of_eq hg rfl]
        refine ⟨rfl, Nat.zero_le _, ?_⟩
        intro b hb
        simp only [Except.ok.injEq, Option.some.injEq] at hb
        subst hb
        refine ⟨fun _ => ⟨rfl, ?_⟩, fun hnone => ?_⟩
        · rw [hg]
        · rw [herr] at hnone
          cases hnone
      | none =>
        have hg := genBlock_of_appended hm herr
        rw [tickCalls_of_eq hg rfl]
        refine ⟨rfl, Nat.le_refl _, ?_⟩
        intro b hb
        simp only [Except.ok.injEq, Option.some.injEq] at hb
        subst hb
        refine ⟨fun hne => absurd herr hne, fun _ => rfl⟩

/-- Worked instance of C5: a rejected append leaves the mempool as it was and makes no
eviction call; an accepted append is followed by one eviction call with that block. -/
theorem C5_clean_iff_appended_witness :
    (exService.makeBlock exEnvRejects exWorld = .ok (some exBlock) ∧
     (exEnvRejects.AddBlock exWorld.ledger exBlock).1 ≠ none ∧
     cleaned (tickCalls exService exEnvRejects exWorld) = [] ∧
     (exService.genBlock exEnvRejects exWorld).2.pool = exWorld.pool) ∧
    (exService.makeBlock exEnv exWorld = .ok (some exBlock) ∧
     (exEnv.AddBlock exWorld.ledger exBlock).1 = none ∧
     cleaned (tickCalls exService exEnv exWorld) = [exBlock]) :=
  ⟨⟨rfl, by decide,
     ((C5_clean_iff_appended exService exEnvRejects exWorld).2.2 exBlock rfl).1 (by decide)⟩,
   ⟨rfl, rfl,
     ((C5_clean_iff_appended exService exEnv exWorld).2.2 exBlock rfl).2 rfl⟩⟩

/-- C6 fails on the code: with `GetNonce() = 7` and a clock reading of
1500000000000000003 ns, the returned block has `ConsensusData = 7` while the payload
of its bookkeeping transaction (element 0) carries the nonce 1500000000000000003. -/
theorem C6_consensus_data_differs_from_payload_nonce :
    exService.makeBlock exEnv exWorld = .ok (some exBlock) ∧
    exBlock.Header.ConsensusData = 7 ∧
    exBlock.Transactions.head?.map (fun t => t.Payload)
      = some (Payload.BookKeeping 1500000000000000003) ∧
    exBlock.Transactions.head?.map (fun t => t.Payload)
      ≠ some (Payload.BookKeeping exBlock.Header.ConsensusData) := by
  refine ⟨rfl, rfl, rfl, ?_⟩
  decide

/-- C7 fails on the code: when `GetDefaultAccount` returns no account and an error,
`makeBlock` does not return nil but panics on `ac.PublicKey`; the tick ends in that
panic, with the world untouched and no call recorded. -/
theorem C7_no_account_panics :
    exServiceNoAccount.Client.GetDefaultAccount = (none, some "no default account") ∧
    exServiceNoAccount.makeBlock exEnv exWorld = .error Panic.nilPointerDereference ∧
    exServiceNoAccount.makeBlock exEnv exWorld ≠ .ok none ∧
    exServiceNoAccount.genBlock exEnv exWorld = (some Panic.nilPointerDereference, exWorld) := by
  refine ⟨rfl, rfl, ?_, rfl⟩
  intro h
  cases h

/-- C8 fails on the code: for a service created by `NewSoloService`, `Start` returns
nil and leaves `existCh` nil, so `Halt` panics (close of nil channel) instead of
returning nil, and the termination case of the loop can never fire. -/
theorem C8_halt_after_start_panics (client : Client) (localNet : Neter) :
    (NewSoloService client localNet).Start = none ∧
    (NewSoloService client localNet).existCh = none ∧
    (NewSoloService client localNet).Halt = .error Panic.closeOfNilChannel ∧
    (∀ env w timerReady pickExist,
      (NewSoloService client localNet).loopPass env w timerReady pickExist
        = if timerReady then LoopPass.ticked ((NewSoloService client localNet).genBlock env w)
          else LoopPass.blocked) := by
  refine ⟨rfl, rfl, rfl, ?_⟩
  intro env w timerReady pickExist
  simp [SoloService.loopPass, NewSoloService, recvReady]

/-- C9 (amended): under the Ledger Store contract, along any sequence of ticks each
committed block has the `uint32` successor of the previously committed block's height
and that block's hash as `PrevBlockHash` (the first one chains onto the initial tip in
the same way); while the height does not wrap, committed heights increase by exactly
one; and no two committed blocks share a `PrevBlockHash` when the initial tip hash and
the hashes of the committed blocks are pairwise distinct. -/
theorem C9_committed_blocks_chain (blockHash : Block → Uint256)
    (ticks : List (SoloService × Env)) (w : World) (hw : w.calls = [])
    (hc : ∀ t ∈ ticks, LedgerContract blockHash t.2) :
    List.Chain' (fun b1 b2 : Block =>
        b2.Header.Height = (b1.Header.Height + 1) % 2 ^ 32 ∧
        b2.Header.PrevBlockHash = blockHash b1)
      (committed (runTicks ticks w).calls) ∧
    (∀ b, (committed (runTicks ticks w).calls).head? = some b →
      b.Header.Height = (w.ledger.BlockHeight + 1) % 2 ^ 32 ∧
      b.Header.PrevBlockHash = w.ledger.CurrentBlockHash) ∧
    (w.ledger.BlockHeight + (committed (runTicks ticks w).calls).length < 2 ^ 32 →
      List.Chain' (fun b1 b2 : Block => b2.Header.Height = b1.Header.Height + 1)
        (committed (runTicks ticks w).calls)) ∧
    ((w.ledger.CurrentBlockHash
        :: (committed (runTicks ticks w).calls).map blockHash).Nodup →
      ((committed (runTicks ticks w).calls).map
        (fun b => b.Header.PrevBlockHash)).Nodup) := by
  obtain ⟨bs, hbs, hch⟩ := runTicks_chain blockHash ticks w hc
  rw [hw] at hbs
  have hcs : committed (runTicks ticks w).calls = bs := by
    rw [hbs]
    rfl
  rw [hcs]
  refine ⟨chainsFrom_consecutive blockHash bs _ hch, ?_, ?_, ?_⟩
  · intro b hb
    cases bs with
    | nil => cases hb
    | cons b1 bs1 =>
      simp only [List.head?_cons, Option.some.injEq] at hb
      rw [← hb]
      exact ⟨hch.1, hch.2.1⟩
  · intro hlt
    exact (chainsFrom_no_wrap blockHash bs _ hch hlt).2
  · intro hnd
    rw [chainsFrom_prev_hashes blockHash bs _ hch]
    exact List.Nodup.sublist (List.dropLast_sublist _) hnd

/-- Worked instance of C9 (amended): two ticks from tip height 41 commit blocks of
heights 42 and 43, the second built on the hash of the first. -/
theorem C9_committed_blocks_chain_witness :
    committed (runTicks exTicks exWorld).calls = [exBlock, exBlockNext] ∧
    List.Chain' (fun b1 b2 : Block =>
        b2.Header.Height = (b1.Header.Height + 1) % 2 ^ 32 ∧
        b2.Header.PrevBlockHash = exBlockHash b1) [exBlock, exBlockNext] ∧
    List.Chain' (fun b1 b2 : Block => b2.Header.Height = b1.Header.Height + 1)
      [exBlock, exBlockNext] ∧
    ([exBlock, exBlockNext].map (fun b => b.Header.PrevBlockHash)).Nodup := by
  have hcs : committed (runTicks exTicks exWorld).calls = [exBlock, exBlockNext] := rfl
  have hcontract : ∀ t ∈ exTicks, LedgerContract exBlockHash t.2 := by
    intro t ht
    simp only [exTicks, List.mem_cons, List.mem_singleton, List.not_mem_nil, or_false,
      or_self] at ht
    rw [ht]
    exact exEnv_ledgerContract
  have h := C9_committed_blocks_chain exBlockHash exTicks exWorld rfl hcontract
  rw [hcs] at h
  exact ⟨hcs, h.1, h.2.2.1 (by decide), h.2.2.2 (by decide)⟩

/-- C9 as stated fails when the `uint32` height wraps: two consecutive successful ticks
from tip height 4294967294 commit a block of height 4294967295 and then a block of
height 0, which is not the first height plus one. -/
theorem C9_counterexample :
    LedgerContract exBlockHash exEnv ∧
    committed (runTicks exTicks exWorldBeforeWrap).calls = [exBlockLast, exBlockWrapped] ∧
    exBlockWrapped.Header.PrevBlockHash = exBlockHash exBlockLast ∧
    exBlockLast.Header.Height = 4294967295 ∧
    exBlockWrapped.Header.Height = 0 ∧
    ¬ (exBlockWrapped.Header.Height = exBlockLast.Header.Height + 1 ∧
       exBlockWrapped.Header.PrevBlockHash = exBlockHash exBlockLast) := by
  refine ⟨exEnv_ledgerContract, rfl, rfl, rfl, rfl, ?_⟩
  decide

/-- C10: in every tick in which `GetBookKeeperAddress`, `ComputeRoot`, `SignBySigner`,
`CreateSignatureContract` or `AddContract` reports an error, `makeBlock` returns nil
(never a block), `genBlock` makes no `AddBlock` and no `CleanSubmittedTransactions`
call, and ledger and mempool are as before the tick. -/
theorem C10_stage_failure_aborts (this : SoloService) (env : Env) (w : World)
    (h : StageFailure this env w) :
    this.makeBlock env w = .ok none ∧
    this.genBlock env w = (none, w) ∧
    tickCalls this env w = [] ∧
    (this.genBlock env w).2.ledger = w.ledger ∧
    (this.genBlock env w).2.pool = w.pool := by
  have hm : this.makeBlock env w = .ok none := by
    cases h with
    | GetBookKeeperAddress ac e hac herr =>
      unfold SoloService.makeBlock
      simp only [hac, herr]
    | ComputeRoot ac nb e hac hbk herr =>
      unfold SoloService.makeBlock
      unfold tickTransactions at herr
      simp only [hac, hbk, herr]
    | SignBySigner ac nb txRoot e hac hbk hroot herr =>
      apply makeBlock_of_programs_error hac hbk hroot
        (e := "SignBySigner error:" ++ e)
      unfold SoloService.getBlockPrograms
      simp only [herr]
    | CreateSignatureContract ac nb txRoot sigData e hac hbk hroot hsig herr =>
      apply makeBlock_of_programs_error hac hbk hroot
        (e := "CreateSignatureContract error:" ++ e)
      unfold SoloService.getBlockPrograms
      simp only [hsig, herr]
    | AddContract ac nb txRoot sigData sc e hac hbk hroot hsig hsc herr =>
      apply makeBlock_of_programs_error hac hbk hroot (e := "AddContract error:" ++ e)
      unfold SoloService.getBlockPrograms
      simp only [hsig, hsc]
      split
      · rename_i e1 c1 heq
        rw [heq] at herr
        simp only [Option.some.injEq] at herr
        rw [herr]
      · rename_i c1 heq
        rw [heq] at herr
        cases herr
  have hg := genBlock_of_nil hm
  refine ⟨hm, hg, tickCalls_of_unchanged hg, ?_, ?_⟩
  · rw [hg]
  · rw [hg]

/-- Worked instance of C10: a signing failure aborts the tick and leaves the world as
it was. -/
theorem C10_stage_failure_aborts_witness :
    exService.makeBlock exEnvSignFails exWorld = .ok none ∧
    exService.genBlock exEnvSignFails exWorld = (none, exWorld) ∧
    tickCalls exService exEnvSignFails exWorld = [] ∧
    (exService.genBlock exEnvSignFails exWorld).2.ledger = exWorld.ledger ∧
    (exService.genBlock exEnvSignFails exWorld).2.pool = exWorld.pool :=
  C10_stage_failure_aborts exService exEnvSignFails exWorld
    (StageFailure.SignBySigner { PublicKey := 11, PrivateKey := 5 } 11 6
      "no private key" rfl rfl rfl rfl)

end solo
